import Mathlib

/-!
Verification of the bumblebee repository (a Tauri application comparing two
directory trees and analyzing disk usage) against its natural-language
specification.

The development contains a shallow embedding of the two Rust engines:

* src-tauri/src/disk_space.rs — the disk usage analyzer: filesystem trees are
  modelled by the inductive type FSNode (including metadata failures, iterator
  failures and unreadable directories), the atomic cancellation flag by the
  schedule of values its successive loads return, and the traversal
  analyze_directory_recursive / analyse_entry by structurally recursive
  functions threading the Context state.
* src-tauri/src/main.rs — the directory comparator: filesystems are modelled by
  the inductive type CFS, the SHA-256 digest of a file is idealized as the exact
  byte sequence of its content (a deterministic, collision-free stand-in), and
  walking, collapsing, hashing and comparing are translated function by
  function.
* src-tauri/src/debounce.rs — the progress throttler, with Instant timestamps
  modelled as natural-number times passed explicitly.
-/

/-! ## String utilities

Rust str::starts_with tests whether one string is a byte prefix of another;
on valid UTF-8 this coincides with the character-list prefix test below.
Rust String Ord (used by itertools sorted and Vec::sort) is byte-wise
lexicographic order, which on valid UTF-8 coincides with the code-point
lexicographic order charsLt below. -/

def charsBeginWith : List Char → List Char → Bool
  | [], _ => true
  | _ :: _, [] => false
  | a :: as, b :: bs => a == b && charsBeginWith as bs

/-- Model of Rust str::starts_with: starts_with s pre is true when pre is a
prefix of s. -/
def starts_with (s pre : String) : Bool := charsBeginWith pre.data s.data

def charsLt : List Char → List Char → Bool
  | [], [] => false
  | [], _ :: _ => true
  | _ :: _, [] => false
  | a :: as, b :: bs => if a < b then true else if a == b then charsLt as bs else false

def strLt (a b : String) : Bool := charsLt a.data b.data

def strLe (a b : String) : Bool := strLt a b || a == b

/-- Model of Rust Path::join as used on Unix: base joined with a non-empty
relative component appends a separator and the component. -/
def pathJoin (base name : String) : String := base ++ "/" ++ name

/-- Insertion sort; a stable comparison sort, the same sorted sequence that
itertools sorted() and Vec::sort produce (ties are identical values here, so
any stable order coincides). -/
def insertSorted (le : α → α → Bool) (a : α) : List α → List α
  | [] => [a]
  | b :: bs => if le a b then a :: b :: bs else b :: insertSorted le a bs

def insertionSort (le : α → α → Bool) : List α → List α
  | [] => []
  | a :: as => insertSorted le a (insertionSort le as)

/-! ## Disk usage analyzer (src-tauri/src/disk_space.rs)

The filesystem reachable from a directory is modelled by FSNode:

* file — a regular file with its metadata size,
* metaErr — a directory entry whose metadata() call fails,
* entryErr — an Err item produced by the ReadDir iterator itself,
* dirOk — a readable directory with its children,
* dirFail — a directory on which fs::read_dir fails.

A Listing is what fs::read_dir on the root yields: the children, or a failure.

The shared AtomicBool should_abort is modelled by the schedule
Context.abortAt: the value returned by the k-th atomic load performed during
the run.  Context.checks counts the loads performed so far. -/

inductive FSNode where
  | file (name : String) (size : Nat)
  | metaErr (name : String) (msg : String)
  | entryErr (msg : String)
  | dirOk (name : String) (children : List FSNode)
  | dirFail (name : String) (msg : String)

inductive Listing where
  | fail (msg : String)
  | ok (children : List FSNode)

/-- The Entry enum of disk_space.rs; the Dir variant carries the four DirEntry
fields and the Error variant the four ErrorEntry fields (the analyzer always
builds Error entries with size and content absent). -/
inductive Entry where
  | File (path : String) (size : Nat)
  | Dir (path : String) (size : Nat) (number_of_files : Nat) (content : List Entry)
  | Error (path : Option String) (size : Option Nat) (content : Option (List Entry))
      (reason : String)

/-- Context of disk_space.rs: the abort-flag load schedule (with the count of
loads done) stands in for the shared should_abort flag, and
number_of_files_found is threaded exactly as in the source.  The debounced
progress callback does not influence the tree and is modelled separately. -/
structure Context where
  abortAt : Nat → Bool
  checks : Nat
  number_of_files_found : Nat

/-- Entry::size of disk_space.rs. -/
def Entry.size : Entry → Nat
  | .File _ s => s
  | .Dir _ s _ _ => s
  | .Error _ _ _ _ => 0

/-- Entry::number_of_files of disk_space.rs. -/
def Entry.number_of_files : Entry → Nat
  | .File _ _ => 1
  | .Error _ _ _ _ => 1
  | .Dir _ _ n _ => n

/-- The matches!(entry, Entry::File(_)) test used for the running
number_of_files_found total. -/
def Entry.isFileEntry : Entry → Bool
  | .File _ _ => true
  | _ => false

/-- The branch of analyze_directory_recursive taken when fs::read_dir fails:
one abort-flag load, then the Aborted error or the read error. -/
def analyze_dir_fail (ctx : Context) (path_str : String) (msg : String) : Prod Entry Context :=
  let aborted := ctx.abortAt ctx.checks
  let ctx1 : Context := { ctx with checks := ctx.checks + 1 }
  if aborted then
    (.Error (some path_str) none none "Aborted", ctx1)
  else
    (.Error (some path_str) none none msg, ctx1)

/-- The tail of analyze_directory_recursive after the children loop: sum the
sizes, sum the file counts, bump number_of_files_found by the number of File
children, and build the Dir entry. -/
def finish_dir (path_str : String) (r : Prod (List Entry) Context) : Prod Entry Context :=
  let size := (r.1.map Entry.size).sum
  let number_of_files := (r.1.map Entry.number_of_files).sum
  let ctx2 : Context := { r.2 with
    number_of_files_found := r.2.number_of_files_found + (r.1.filter Entry.isFileEntry).length }
  (.Dir path_str size number_of_files r.1, ctx2)

mutual
/-- analyse_entry of disk_space.rs.  An Err item from the iterator or a
metadata failure becomes an Error entry, a file becomes a File entry (with the
full entry.path(), i.e. the parent path joined with the file name), and
anything else recurses as a directory.  The directory body (the dirOk case) is
the body of analyze_directory_recursive, inlined here so that the recursion is
structural; analyse_entry_dirOk below states the correspondence. -/
def analyse_entry (ctx : Context) (parent : String) : FSNode → Prod Entry Context
  | .entryErr msg => (.Error none none none msg, ctx)
  | .metaErr name msg => (.Error (some (pathJoin parent name)) none none msg, ctx)
  | .file name size => (.File (pathJoin parent name) size, ctx)
  | .dirOk name children =>
    let path_str := pathJoin parent name
    let aborted := ctx.abortAt ctx.checks
    let ctx1 : Context := { ctx with checks := ctx.checks + 1 }
    if aborted then
      (.Error (some path_str) none none "Aborted", ctx1)
    else
      finish_dir path_str (analyze_children ctx1 path_str children)
  | .dirFail name msg => analyze_dir_fail ctx (pathJoin parent name) msg
termination_by structural n => n

/-- The for-loop of analyze_directory_recursive over the ReadDir iterator:
each child is analysed in turn (Ok and Err results are pushed alike), the
Context threading left to right. -/
def analyze_children (ctx : Context) (parent : String) : List FSNode → Prod (List Entry) Context
  | [] => ([], ctx)
  | n :: ns =>
    let r1 := analyse_entry ctx parent n
    let r2 := analyze_children r1.2 parent ns
    (r1.1 :: r2.1, r2.2)
termination_by structural ns => ns
end

/-- analyze_directory_recursive of disk_space.rs on a directory whose listing
succeeded: one abort-flag load (returning the Aborted error if it reads true),
the progress offer (modelled separately), then the children loop and the Dir
entry construction. -/
def analyze_dir_ok (ctx : Context) (path_str : String) (children : List FSNode) :
    Prod Entry Context :=
  let aborted := ctx.abortAt ctx.checks
  let ctx1 : Context := { ctx with checks := ctx.checks + 1 }
  if aborted then
    (.Error (some path_str) none none "Aborted", ctx1)
  else
    finish_dir path_str (analyze_children ctx1 path_str children)

/-- analyze_directory_recursive of disk_space.rs. -/
def analyze_directory_recursive (ctx : Context) (path_str : String) : Listing → Prod Entry Context
  | .fail msg => analyze_dir_fail ctx path_str msg
  | .ok children => analyze_dir_ok ctx path_str children

mutual
/-- DirEntry::clone_flat of disk_space.rs, on the Entry wrapper: a Dir keeps
its path, size and number_of_files; its content is kept (one level shallower)
only while levels_to_keep is positive.  levels_to_keep is an i32 in the
source, hence Int here. -/
def Entry.clone_flat : Entry → Int → Entry
  | .File p s, _ => .File p s
  | .Error p s c r, _ => .Error p s c r
  | .Dir p s n content, levels_to_keep =>
    .Dir p s n (if levels_to_keep > 0 then cloneFlatList content (levels_to_keep - 1) else [])
termination_by structural e => e

def cloneFlatList : List Entry → Int → List Entry
  | [], _ => []
  | e :: es, levels => e.clone_flat levels :: cloneFlatList es levels
termination_by structural es => es
end

mutual
/-- The body of the loop of DirEntry::get_entry_by_path of disk_space.rs for
one child: a non-Dir child is skipped (none here means the loop continues);
a Dir child whose path equals the target is returned, and one whose path is a
prefix of the target makes the loop return the recursive search of its content
immediately (some r here means the loop returns r). -/
def get_entry_step : Entry → String → Option (Option Entry)
  | .Dir p s n c, path =>
    if p == path then some (some (.Dir p s n c))
    else if starts_with path p then some (get_entry_by_path c path)
    else none
  | _, _ => none
termination_by structural e => e

/-- DirEntry::get_entry_by_path of disk_space.rs, as a function of the content
list of the DirEntry it is invoked on: run the loop body get_entry_step on
each child until it produces a result, and fall through to none. -/
def get_entry_by_path : List Entry → String → Option Entry
  | [], _ => none
  | e :: rest, path =>
    match get_entry_step e path with
    | some r => r
    | none => get_entry_by_path rest path
termination_by structural es => es
end

/-- load_nested_directory of disk_space.rs: against the cached analysis result,
search the root DirEntry and return a depth-2 flattened copy of the match. -/
def load_nested_directory (path : String) (saved_result : Option Entry) : Option Entry :=
  match saved_result with
  | some (.Dir _ _ _ c) =>
    match get_entry_by_path c path with
    | some e => some (e.clone_flat 2)
    | none => none
  | _ => none

/-- analyze_disk_usage of disk_space.rs.  The command first stores false into
should_abort, so the pre-invocation flag value initialFlag is discarded and
every later load returns abortAt k, the flag value at the k-th load (true only
once abort() has been issued during the run).  The wall-clock duration field is
not modelled.  A none result models the panic!() reached when the traversal
result is not a Dir entry. -/
def analyze_disk_usage (initialFlag : Bool) (abortAt : Nat → Bool) (path : String)
    (root : Listing) : Option Entry :=
  let ctx0 : Context := { abortAt := abortAt, checks := 0, number_of_files_found := 0 }
  let r := analyze_directory_recursive ctx0 path root
  if abortAt r.2.checks then
    some (.Error (some path) none none "Aborted")
  else
    match r.1 with
    | .Dir p s n c => some ((Entry.Dir p s n c).clone_flat 2)
    | _ => none

/-! ## Specification-side predicates on UsageTrees -/

mutual
/-- Sum of the sizes of all transitively contained File entries. -/
def Entry.sumFileSizes : Entry → Nat
  | .File _ s => s
  | .Error _ _ _ _ => 0
  | .Dir _ _ _ c => sumFileSizesList c
termination_by structural e => e

def sumFileSizesList : List Entry → Nat
  | [] => 0
  | e :: es => e.sumFileSizes + sumFileSizesList es
termination_by structural es => es
end

mutual
/-- Count of all transitively contained File and Error leaves. -/
def Entry.countLeaves : Entry → Nat
  | .File _ _ => 1
  | .Error _ _ _ _ => 1
  | .Dir _ _ _ c => countLeavesList c
termination_by structural e => e

def countLeavesList : List Entry → Nat
  | [] => 0
  | e :: es => e.countLeaves + countLeavesList es
termination_by structural es => es
end

mutual
/-- Every Dir node of the tree, recursively, stores exactly the sum of its
descendant File sizes and the count of its descendant File and Error leaves. -/
def Entry.wellAggregated : Entry → Bool
  | .File _ _ => true
  | .Error _ _ _ _ => true
  | .Dir _ s n c => s == sumFileSizesList c && (n == countLeavesList c && wellAggregatedList c)
termination_by structural e => e

def wellAggregatedList : List Entry → Bool
  | [] => true
  | e :: es => e.wellAggregated && wellAggregatedList es
termination_by structural es => es
end

mutual
/-- Every File and Dir node of the tree carries a path that begins with root
(Error entries aside, whose path may be absent). -/
def Entry.rootedUnder (root : String) : Entry → Bool
  | .File p _ => starts_with p root
  | .Error _ _ _ _ => true
  | .Dir p _ _ c => starts_with p root && rootedUnderList root c
termination_by structural e => e

def rootedUnderList (root : String) : List Entry → Bool
  | [] => true
  | e :: es => e.rootedUnder root && rootedUnderList root es
termination_by structural es => es
end

mutual
/-- Depth of a tree: a Dir is one level deeper than its deepest child. -/
def Entry.depth : Entry → Nat
  | .File _ _ => 0
  | .Error _ _ _ _ => 0
  | .Dir _ _ _ c => 1 + depthList c
termination_by structural e => e

def depthList : List Entry → Nat
  | [] => 0
  | e :: es => max e.depth (depthList es)
termination_by structural es => es
end

/-! ## Progress throttler (src-tauri/src/debounce.rs)

Instant::now() values are modelled as natural-number timestamps supplied by the
caller; Instant::duration_since saturates at zero for an earlier instant,
which truncated subtraction on Nat matches. -/

/-- Debounce of debounce.rs: the minimum delay and the time of the last
delivered notification (none before the first call).  The wrapped callback is
not part of the state; maybe_run below reports whether it was invoked. -/
structure Debounce where
  delay : Nat
  last_run : Option Nat

/-- Debounce::maybe_run of debounce.rs called at time now: the first call
fires and records now; a later call fires, and records now, only when more
than delay has passed since the recorded last run, and otherwise leaves the
state untouched. -/
def maybe_run (d : Debounce) (now : Nat) : Prod Bool Debounce :=
  match d.last_run with
  | some t =>
    if d.delay < now - t then (true, { delay := d.delay, last_run := some now })
    else (false, d)
  | none => (true, { delay := d.delay, last_run := some now })

/-- A sequence of maybe_run calls, each a timestamped payload; returns the
calls whose notification was actually delivered, in order, with the final
state.  Payloads are only ever passed through to the callback or discarded —
the state stores none of them. -/
def run_calls (d : Debounce) : List (Prod Nat A) → Prod (List (Prod Nat A)) Debounce
  | [] => ([], d)
  | (t, p) :: rest =>
    let r := maybe_run d t
    let r2 := run_calls r.2 rest
    if r.1 then ((t, p) :: r2.1, r2.2) else (r2.1, r2.2)

/-! ## Directory comparator (src-tauri/src/main.rs)

A comparison root is a list of CFS nodes (the entries of the root directory):

* file — a regular file; its content is some byte sequence, or none when
  opening/reading the file fails (the hash cannot be computed),
* dirOk — a readable directory,
* dirFail — a directory that exists but whose content listing fails (WalkDir
  yields the directory itself, then an Err item),
* other — an entry that is neither a regular file nor a directory.

get_file_content_hash streams the file through SHA-256; the digest is
idealized here as the exact byte sequence of the content, a deterministic and
collision-free stand-in (equal digests exactly when equal bytes). -/

inductive CFS where
  | file (name : String) (content : Option (List Nat))
  | dirOk (name : String) (children : List CFS)
  | dirFail (name : String) (msg : String)
  | other (name : String)

def CFS.name : CFS → String
  | .file n _ => n
  | .dirOk n _ => n
  | .dirFail n _ => n
  | .other n => n

/-- The EntryType enum of main.rs, in declaration order (Ord derives from it). -/
inductive EntryType where
  | Directory
  | File
  | Unknown
deriving DecidableEq

structure EntryTypeMismatch where
  path : String
  type_in_dir_a : EntryType
  type_in_dir_b : EntryType
deriving DecidableEq

structure EntryInfo where
  path : String
deriving DecidableEq

structure ErrorInfo where
  path : String
  message : String
deriving DecidableEq

/-- The CompareResult enum of main.rs, in declaration order. -/
inductive CompareResult where
  | CouldNotReadDirectory (info : ErrorInfo)
  | CouldNotCalculateHash (info : ErrorInfo)
  | MissingInDirA (info : EntryInfo)
  | MissingInDirB (info : EntryInfo)
  | DifferingContent (info : EntryInfo)
  | TypeMismatch (info : EntryTypeMismatch)
deriving DecidableEq

/-- Relative-path concatenation as WalkDir + strip_prefix produce it: the
root itself strips to the empty path, its children to bare names, and deeper
entries to parent/name. -/
def joinRel (parent name : String) : String :=
  if parent = "" then name else parent ++ "/" ++ name

mutual
/-- One node of the WalkDir traversal of get_directory_content_recursively in
main.rs, at relative path joinRel relParent name under the walked root dir:
every visited entry contributes its root-relative path to the set; a directory
whose listing fails also yields an Err item, recorded as a
CouldNotReadDirectory finding carrying the full (unstripped) path. -/
def walkNode (dir relParent : String) : CFS → Prod (List String) (List CompareResult)
  | .file name _ => ([joinRel relParent name], [])
  | .other name => ([joinRel relParent name], [])
  | .dirFail name msg =>
    ([joinRel relParent name],
      [.CouldNotReadDirectory ⟨pathJoin dir (joinRel relParent name), msg⟩])
  | .dirOk name children =>
    let r := walkList dir (joinRel relParent name) children
    (joinRel relParent name :: r.1, r.2)
termination_by structural c => c

def walkList (dir relParent : String) : List CFS → Prod (List String) (List CompareResult)
  | [] => ([], [])
  | c :: cs =>
    let r1 := walkNode dir relParent c
    let r2 := walkList dir relParent cs
    (r1.1 ++ r2.1, r1.2 ++ r2.2)
termination_by structural cs => cs
end

/-- get_directory_content_recursively of main.rs on a readable root: WalkDir
visits the root itself first (whose stripped path is empty) and then every
entry below it. -/
def get_directory_content_recursively (dir : String) (entries : List CFS) :
    Prod (List String) (List CompareResult) :=
  let r := walkList dir "" entries
  ("" :: r.1, r.2)

/-- Path-segment splitting of a non-empty relative path (the inverse of
joinRel), used to resolve Path::new(dir).join(sub_path) in the modelled
filesystem. -/
def splitSeg : List Char → List (List Char)
  | [] => [[]]
  | c :: cs =>
    match splitSeg cs with
    | [] => [[]]
    | s :: ss => if c = '/' then [] :: s :: ss else (c :: s) :: ss

def splitPath (s : String) : List String := (splitSeg s.data).map (fun cs => String.mk cs)

def findEntry (name : String) : List CFS → Option CFS
  | [] => none
  | c :: cs => if c.name = name then some c else findEntry name cs

/-- Resolution of a slash-separated relative path against a modelled root. -/
def resolve : List CFS → List String → Option CFS
  | _, [] => none
  | entries, [part] => findEntry part entries
  | entries, part :: rest =>
    match findEntry part entries with
    | some (.dirOk _ cs) => resolve cs rest
    | _ => none
termination_by structural e p => p

/-- Resolution of a sub_path produced by the walk: the empty path denotes the
root directory itself (Path::join with an empty component resolves back to the
root for the is_file and is_dir probes of compare_entry). -/
def resolve_path (entries : List CFS) (sub : String) : Option CFS :=
  if sub = "" then some (.dirOk "" entries) else resolve entries (splitPath sub)

/-- Path::is_file on a resolved entry. -/
def path_is_file : Option CFS → Bool
  | some (.file _ _) => true
  | _ => false

/-- Path::is_dir on a resolved entry (a directory whose listing fails is still
a directory). -/
def path_is_dir : Option CFS → Bool
  | some (.dirOk _ _) => true
  | some (.dirFail _ _) => true
  | _ => false

/-- get_entry_type of main.rs. -/
def get_entry_type (r : Option CFS) : EntryType :=
  if path_is_dir r then .Directory
  else if path_is_file r then .File
  else .Unknown

/-- get_file_content_hash of main.rs on a resolved entry: the idealized digest
of the content, or the I/O failure message when the file cannot be read. -/
def get_file_content_hash : Option CFS → Except String (List Nat)
  | some (.file _ (some bytes)) => .ok bytes
  | some (.file _ none) => .error "could not read"
  | _ => .error "could not open"

/-- compare_entry of main.rs: for a path present in both roots, hash both
sides when both are regular files (a hash failure on a side becomes a
CouldNotCalculateHash finding carrying that side's full path, the first
failing side short-circuiting), report DifferingContent when both hashes
exist and differ, report TypeMismatch unless both sides are directories, and
otherwise report nothing. -/
def compare_entry (fsA fsB : List CFS) (dir_a_path dir_b_path : String) (sub_path : String) :
    Except CompareResult Unit :=
  let path_a := resolve_path fsA sub_path
  let path_b := resolve_path fsB sub_path
  if path_is_file path_a && path_is_file path_b then
    match get_file_content_hash path_a with
    | .error why => .error (.CouldNotCalculateHash ⟨pathJoin dir_a_path sub_path, why⟩)
    | .ok hash_a =>
      match get_file_content_hash path_b with
      | .error why => .error (.CouldNotCalculateHash ⟨pathJoin dir_b_path sub_path, why⟩)
      | .ok hash_b =>
        if hash_a ≠ hash_b then .error (.DifferingContent ⟨sub_path⟩) else .ok ()
  else if !(path_is_dir path_a && path_is_dir path_b) then
    .error (.TypeMismatch ⟨sub_path, get_entry_type path_a, get_entry_type path_b⟩)
  else .ok ()

/-- HashSet::difference: the elements of a not contained in b. -/
def set_difference (a b : List String) : List String :=
  a.filter (fun p => !(b.contains p))

/-- HashSet::intersection: the elements of a contained in b. -/
def set_intersection (a b : List String) : List String :=
  a.filter (fun p => b.contains p)

/-- The coalesce step of remove_subdirectories in main.rs, on the sorted list:
keep the accumulator a and drop the next element b whenever b starts with a,
otherwise emit a and continue from b. -/
def coalesce_go (a : String) : List String → List String
  | [] => [a]
  | b :: rest => if starts_with b a then coalesce_go a rest else a :: coalesce_go b rest

def coalesce_starts_with : List String → List String
  | [] => []
  | a :: rest => coalesce_go a rest

/-- remove_subdirectories of main.rs: sort the paths, then drop every entry
whose beginning matches the previously kept entry (a raw string-prefix test). -/
def remove_subdirectories (paths : List String) : List String :=
  coalesce_starts_with (insertionSort strLe paths)

/-- find_missing_entries of main.rs: collapse each set difference and tag it
with the side it is missing from. -/
def find_missing_entries (dir_a_content dir_b_content : List String) : List CompareResult :=
  (remove_subdirectories (set_difference dir_b_content dir_a_content)).map
      (fun p => .MissingInDirA ⟨p⟩)
    ++ (remove_subdirectories (set_difference dir_a_content dir_b_content)).map
      (fun p => .MissingInDirB ⟨p⟩)

def exceptErr : Except CompareResult Unit → Option CompareResult
  | .error e => some e
  | .ok _ => none

/-- compare_directory_contents of main.rs: the findings of compare_entry over
the intersection of the two path sets. -/
def compare_directory_contents (fsA fsB : List CFS) (dir_a_path dir_b_path : String)
    (dir_a_content dir_b_content : List String) : List CompareResult :=
  (set_intersection dir_a_content dir_b_content).filterMap
    (fun p => exceptErr (compare_entry fsA fsB dir_a_path dir_b_path p))

/-! The derived Ord of CompareResult: variants in declaration order, then the
payload fields lexicographically (String fields in byte order). -/

def cmpNat (a b : Nat) : Ordering :=
  if a < b then .lt else if a = b then .eq else .gt

def strCmp (a b : String) : Ordering :=
  if strLt a b then .lt else if a == b then .eq else .gt

def EntryType.idx : EntryType → Nat
  | .Directory => 0
  | .File => 1
  | .Unknown => 2

def EntryType.cmp (a b : EntryType) : Ordering := cmpNat a.idx b.idx

def ErrorInfo.cmp (a b : ErrorInfo) : Ordering :=
  (strCmp a.path b.path).then (strCmp a.message b.message)

def EntryInfo.cmp (a b : EntryInfo) : Ordering := strCmp a.path b.path

def EntryTypeMismatch.cmp (a b : EntryTypeMismatch) : Ordering :=
  (strCmp a.path b.path).then
    ((EntryType.cmp a.type_in_dir_a b.type_in_dir_a).then
      (EntryType.cmp a.type_in_dir_b b.type_in_dir_b))

def CompareResult.idx : CompareResult → Nat
  | .CouldNotReadDirectory _ => 0
  | .CouldNotCalculateHash _ => 1
  | .MissingInDirA _ => 2
  | .MissingInDirB _ => 3
  | .DifferingContent _ => 4
  | .TypeMismatch _ => 5

def CompareResult.cmp : CompareResult → CompareResult → Ordering
  | .CouldNotReadDirectory x, .CouldNotReadDirectory y => ErrorInfo.cmp x y
  | .CouldNotCalculateHash x, .CouldNotCalculateHash y => ErrorInfo.cmp x y
  | .MissingInDirA x, .MissingInDirA y => EntryInfo.cmp x y
  | .MissingInDirB x, .MissingInDirB y => EntryInfo.cmp x y
  | .DifferingContent x, .DifferingContent y => EntryInfo.cmp x y
  | .TypeMismatch x, .TypeMismatch y => EntryTypeMismatch.cmp x y
  | x, y => cmpNat x.idx y.idx

def CompareResult.le (a b : CompareResult) : Bool := !(CompareResult.cmp a b == .gt)

/-- compare of main.rs: walk both roots, chain the walk errors of both sides,
the collapsed missing-entry findings and the content findings, and sort the
result with the derived total order. -/
def compare (path_a path_b : String) (fsA fsB : List CFS) : List CompareResult :=
  let ra := get_directory_content_recursively path_a fsA
  let rb := get_directory_content_recursively path_b fsB
  insertionSort CompareResult.le
    (ra.2 ++ rb.2 ++ find_missing_entries ra.1 rb.1
      ++ compare_directory_contents fsA fsB path_a path_b ra.1 rb.1)

/-! ## Concrete inputs used by the scenario claims -/

/-- Root A of the collapsing scenario: file1.txt (10 bytes) and
subdir/file2.txt. -/
def scenarioFsA : List CFS :=
  [.file "file1.txt" (some [1, 2, 3, 4, 5, 6, 7, 8, 9, 10]),
   .dirOk "subdir" [.file "file2.txt" (some [1, 2])]]

/-- Root B of the collapsing scenario: only file1.txt, identical content. -/
def scenarioFsB : List CFS :=
  [.file "file1.txt" (some [1, 2, 3, 4, 5, 6, 7, 8, 9, 10])]

/-! ## Theorems -/

/-- The inlined directory body of analyse_entry agrees with
analyze_directory_recursive, as in the source where the dirOk case literally
calls analyze_directory_recursive on entry.path(). -/
theorem analyse_entry_dirOk (ctx : Context) (parent name : String) (children : List FSNode) :
    analyse_entry ctx parent (.dirOk name children)
      = analyze_directory_recursive ctx (pathJoin parent name) (.ok children) := rfl

theorem charsBeginWith_iff (p l : List Char) : charsBeginWith p l = true ↔ p <+: l := by
  induction p generalizing l with
  | nil => simp [charsBeginWith]
  | cons a as ih =>
    cases l with
    | nil => simp [charsBeginWith]
    | cons b bs =>
      simp [charsBeginWith, List.cons_prefix_cons, ih, Bool.and_eq_true, beq_iff_eq]

theorem starts_with_refl (p : String) : starts_with p p = true := by
  rw [starts_with, charsBeginWith_iff]

theorem pathJoin_data (p n : String) : (pathJoin p n).data = p.data ++ ('/' :: n.data) := by
  show (p ++ "/" ++ n).data = _
  rw [String.data_append, String.data_append, List.append_assoc]
  rfl

theorem starts_with_pathJoin (p n : String) : starts_with (pathJoin p n) p = true := by
  rw [starts_with, charsBeginWith_iff, pathJoin_data]
  exact List.prefix_append _ _

theorem not_starts_with_pathJoin (p n : String) : starts_with p (pathJoin p n) = false := by
  rw [starts_with]
  by_contra hc
  rw [Bool.not_eq_false, charsBeginWith_iff] at hc
  have hlen := hc.length_le
  rw [pathJoin_data] at hlen
  simp at hlen

theorem pathJoin_ne (p n : String) : pathJoin p n ≠ p := by
  intro h
  have hd : (pathJoin p n).data = p.data := congrArg String.data h
  rw [pathJoin_data] at hd
  have hlen := congrArg List.length hd
  simp at hlen

theorem starts_with_trans (a b c : String) (h1 : starts_with b a = true)
    (h2 : starts_with c b = true) : starts_with c a = true := by
  rw [starts_with, charsBeginWith_iff] at h1 h2 ⊢
  exact h1.trans h2

theorem size_of_wellAggregated (e : Entry) (h : e.wellAggregated = true) :
    Entry.size e = e.sumFileSizes ∧ Entry.number_of_files e = e.countLeaves := by
  cases e with
  | File p s => simp [Entry.size, Entry.number_of_files, Entry.sumFileSizes, Entry.countLeaves]
  | Error p s c r => simp [Entry.size, Entry.number_of_files, Entry.sumFileSizes, Entry.countLeaves]
  | Dir p s n c =>
    simp only [Entry.wellAggregated, Bool.and_eq_true, beq_iff_eq] at h
    simp [Entry.size, Entry.number_of_files, Entry.sumFileSizes, Entry.countLeaves, h.1, h.2.1]

theorem sums_of_wellAggregatedList (es : List Entry) (h : wellAggregatedList es = true) :
    (es.map Entry.size).sum = sumFileSizesList es
      ∧ (es.map Entry.number_of_files).sum = countLeavesList es := by
  induction es with
  | nil => simp [sumFileSizesList, countLeavesList]
  | cons e es ih =>
    simp only [wellAggregatedList, Bool.and_eq_true] at h
    have h1 := size_of_wellAggregated e h.1
    have h2 := ih h.2
    simp [sumFileSizesList, countLeavesList, h1.1, h1.2, h2.1, h2.2]

theorem analyzer_wellAggregated :
    (∀ (ctx : Context) (parent : String) (n : FSNode),
        ((analyse_entry ctx parent n).1).wellAggregated = true)
      ∧ ∀ (ctx : Context) (parent : String) (ns : List FSNode),
        wellAggregatedList (analyze_children ctx parent ns).1 = true := by
  refine analyse_entry.mutual_induct
    (fun ctx parent n => ((analyse_entry ctx parent n).1).wellAggregated = true)
    (fun ctx parent ns => wellAggregatedList (analyze_children ctx parent ns).1 = true)
    ?_ ?_ ?_ ?_ ?_ ?_ ?_ ?_
  · intro ctx parent msg
    simp [analyse_entry, Entry.wellAggregated]
  · intro ctx parent name msg
    simp [analyse_entry, Entry.wellAggregated]
  · intro ctx parent name size
    simp [analyse_entry, Entry.wellAggregated]
  · intro ctx parent name children aborted hab
    have hab2 : ctx.abortAt ctx.checks = true := hab
    simp [analyse_entry, hab2, Entry.wellAggregated]
  · intro ctx parent name children path_str aborted ctx1 hab ih
    have hab2 : ¬ ctx.abortAt ctx.checks = true := hab
    have hs := sums_of_wellAggregatedList _ ih
    simp [analyse_entry, hab2, finish_dir, Entry.wellAggregated, hs.1, hs.2, ih]
  · intro ctx parent name msg
    simp only [analyse_entry, analyze_dir_fail]
    split <;> simp [Entry.wellAggregated]
  · intro ctx parent
    simp [analyze_children, wellAggregatedList]
  · intro ctx parent n ns r1 ih1 ih2
    simp [analyze_children, wellAggregatedList, ih1, ih2]

theorem rootedUnder_mono :
    (∀ (e : Entry) (q root : String), e.rootedUnder q = true → starts_with q root = true →
        e.rootedUnder root = true)
      ∧ ∀ (es : List Entry) (q root : String), rootedUnderList q es = true →
        starts_with q root = true → rootedUnderList root es = true := by
  refine Entry.sumFileSizes.mutual_induct
    (fun e => ∀ q root, e.rootedUnder q = true → starts_with q root = true →
      e.rootedUnder root = true)
    (fun es => ∀ q root, rootedUnderList q es = true → starts_with q root = true →
      rootedUnderList root es = true)
    ?_ ?_ ?_ ?_ ?_
  · intro p s q root h1 h2
    simp only [Entry.rootedUnder] at h1 ⊢
    exact starts_with_trans root q p h2 h1
  · intro p s c r q root h1 h2
    simp [Entry.rootedUnder]
  · intro p s n content ih q root h1 h2
    simp only [Entry.rootedUnder, Bool.and_eq_true] at h1 ⊢
    exact ⟨starts_with_trans root q p h2 h1.1, ih q root h1.2 h2⟩
  · intro q root h1 h2
    simp [rootedUnderList]
  · intro e es ih1 ih2 q root h1 h2
    simp only [rootedUnderList, Bool.and_eq_true] at h1 ⊢
    exact ⟨ih1 q root h1.1 h2, ih2 q root h1.2 h2⟩

theorem analyzer_rooted :
    (∀ (ctx : Context) (parent : String) (n : FSNode),
        ((analyse_entry ctx parent n).1).rootedUnder parent = true)
      ∧ ∀ (ctx : Context) (parent : String) (ns : List FSNode),
        rootedUnderList parent (analyze_children ctx parent ns).1 = true := by
  refine analyse_entry.mutual_induct
    (fun ctx parent n => ((analyse_entry ctx parent n).1).rootedUnder parent = true)
    (fun ctx parent ns => rootedUnderList parent (analyze_children ctx parent ns).1 = true)
    ?_ ?_ ?_ ?_ ?_ ?_ ?_ ?_
  · intro ctx parent msg
    simp [analyse_entry, Entry.rootedUnder]
  · intro ctx parent name msg
    simp [analyse_entry, Entry.rootedUnder]
  · intro ctx parent name size
    simp [analyse_entry, Entry.rootedUnder, starts_with_pathJoin]
  · intro ctx parent name children aborted hab
    have hab2 : ctx.abortAt ctx.checks = true := hab
    simp [analyse_entry, hab2, Entry.rootedUnder]
  · intro ctx parent name children path_str aborted ctx1 hab ih
    have hab2 : ¬ ctx.abortAt ctx.checks = true := hab
    have hw := rootedUnder_mono.2 _ (pathJoin parent name) parent ih (starts_with_pathJoin _ _)
    simp [analyse_entry, hab2, finish_dir, Entry.rootedUnder, starts_with_pathJoin, hw]
  · intro ctx parent name msg
    simp only [analyse_entry, analyze_dir_fail]
    split <;> simp [Entry.rootedUnder]
  · intro ctx parent
    simp [analyze_children, rootedUnderList]
  · intro ctx parent n ns r1 ih1 ih2
    simp [analyze_children, rootedUnderList, ih1, ih2]

theorem analyse_entry_dir_path (ctx : Context) (parent : String) (n : FSNode)
    (q : String) (s nf : Nat) (c : List Entry)
    (h : (analyse_entry ctx parent n).1 = .Dir q s nf c) :
    ∃ name, q = pathJoin parent name := by
  cases n with
  | entryErr msg => exact absurd h (by simp [analyse_entry])
  | metaErr name msg => exact absurd h (by simp [analyse_entry])
  | file name size => exact absurd h (by simp [analyse_entry])
  | dirFail name msg =>
    refine absurd h ?_
    simp only [analyse_entry, analyze_dir_fail]
    split <;> simp
  | dirOk name children =>
    refine ⟨name, ?_⟩
    by_cases hab : ctx.abortAt ctx.checks = true
    · exact absurd h (by simp [analyse_entry, hab])
    · simp only [analyse_entry, hab, if_false, finish_dir] at h
      injection h with h1 h2 h3 h4
      exact h1.symm

theorem analyze_children_dir_paths (ctx : Context) (parent : String) (ns : List FSNode) :
    ∀ e ∈ (analyze_children ctx parent ns).1, ∀ (q : String) (s nf : Nat) (c : List Entry),
      e = .Dir q s nf c → ∃ name, q = pathJoin parent name := by
  induction ns generalizing ctx with
  | nil => simp [analyze_children]
  | cons n ns ih =>
    intro e he q s nf c hc
    simp only [analyze_children, List.mem_cons] at he
    rcases he with he | he
    · subst he
      exact analyse_entry_dir_path ctx parent n q s nf c hc
    · exact ih _ e he q s nf c hc

theorem get_entry_by_path_of_joined (p : String) (content : List Entry)
    (h : ∀ e ∈ content, ∀ (q : String) (s nf : Nat) (c : List Entry),
      e = .Dir q s nf c → ∃ name, q = pathJoin p name) :
    get_entry_by_path content p = none := by
  induction content with
  | nil => simp [get_entry_by_path]
  | cons e rest ih =>
    have hrest := ih (fun x hx => h x (List.mem_cons_of_mem _ hx))
    cases e with
    | File fp fs => simp [get_entry_by_path, get_entry_step, hrest]
    | Error ep es ec er => simp [get_entry_by_path, get_entry_step, hrest]
    | Dir q s nf c =>
      obtain ⟨name, hq⟩ := h _ (List.mem_cons_self _ _) q s nf c rfl
      subst hq
      have h1 : (pathJoin p name == p) = false := by
        simp [pathJoin_ne p name]
      simp [get_entry_by_path, get_entry_step, h1, not_starts_with_pathJoin, hrest]

theorem clone_flat_of_depth_le :
    (∀ (e : Entry) (N : Int), (e.depth : Int) ≤ N → e.clone_flat N = e)
      ∧ ∀ (es : List Entry) (N : Int), (depthList es : Int) ≤ N → cloneFlatList es N = es := by
  refine Entry.sumFileSizes.mutual_induct
    (fun e => ∀ N : Int, (e.depth : Int) ≤ N → e.clone_flat N = e)
    (fun es => ∀ N : Int, (depthList es : Int) ≤ N → cloneFlatList es N = es)
    ?_ ?_ ?_ ?_ ?_
  · intro p s N h
    simp [Entry.clone_flat]
  · intro p s c r N h
    simp [Entry.clone_flat]
  · intro p s n content ih N h
    simp only [Entry.depth] at h
    have hpos : (0 : Int) < N := by push_cast at h; omega
    have hrec : (depthList content : Int) ≤ N - 1 := by push_cast at h ⊢; omega
    simp [Entry.clone_flat, hpos, ih (N - 1) hrec]
  · intro N h
    simp [cloneFlatList]
  · intro e es ih1 ih2 N h
    simp only [depthList, Nat.cast_max] at h
    have h1 := ih1 N (le_trans (le_max_left _ _) h)
    have h2 := ih2 N (le_trans (le_max_right _ _) h)
    simp [cloneFlatList, h1, h2]

theorem run_calls_sublist (A : Type) (d : Debounce) (calls : List (Prod Nat A)) :
    ((run_calls d calls).1).Sublist calls := by
  induction calls generalizing d with
  | nil => simp [run_calls]
  | cons c rest ih =>
    obtain ⟨t, p⟩ := c
    by_cases hb : (maybe_run d t).1 = true
    · simpa [run_calls, hb] using List.Sublist.cons₂ (t, p) (ih (maybe_run d t).2)
    · rw [Bool.not_eq_true] at hb
      simpa [run_calls, hb] using List.Sublist.cons (t, p) (ih (maybe_run d t).2)

theorem run_calls_head (A : Type) (del : Nat) (c : Prod Nat A) (rest : List (Prod Nat A)) :
    ((run_calls ⟨del, none⟩ (c :: rest)).1).head? = some c := by
  obtain ⟨t, p⟩ := c
  simp [run_calls, maybe_run]

theorem run_calls_chain (A : Type) (del : Nat) (calls : List (Prod Nat A)) (t0 : Nat) :
    List.Chain (fun a b => del < b - a) t0
      (((run_calls ⟨del, some t0⟩ calls).1).map Prod.fst) := by
  induction calls generalizing t0 with
  | nil => simp [run_calls]
  | cons c rest ih =>
    obtain ⟨t, p⟩ := c
    by_cases hb : del < t - t0
    · have hm : maybe_run ⟨del, some t0⟩ t = (true, ⟨del, some t⟩) := by
        simp [maybe_run, hb]
      simp only [run_calls, hm]
      simp only [if_true]
      exact List.Chain.cons hb (ih t)
    · have hm : maybe_run ⟨del, some t0⟩ t = (false, ⟨del, some t0⟩) := by
        simp [maybe_run, hb]
      simp only [run_calls, hm]
      simpa using ih t0

theorem differing_requires_hashes (fsA fsB : List CFS) (pa pb sub : String) (info : EntryInfo)
    (h : compare_entry fsA fsB pa pb sub = .error (.DifferingContent info)) :
    ∃ ha hb, get_file_content_hash (resolve_path fsA sub) = .ok ha
      ∧ get_file_content_hash (resolve_path fsB sub) = .ok hb := by
  by_cases hf : (path_is_file (resolve_path fsA sub) && path_is_file (resolve_path fsB sub)) = true
  · cases hA : get_file_content_hash (resolve_path fsA sub) with
    | error whyA => simp [compare_entry, hf, hA] at h
    | ok hashA =>
      cases hB : get_file_content_hash (resolve_path fsB sub) with
      | error whyB => simp [compare_entry, hf, hA, hB] at h
      | ok hashB => exact ⟨hashA, hashB, rfl, rfl⟩
  · rw [Bool.not_eq_true] at hf
    by_cases hd : (path_is_dir (resolve_path fsA sub) && path_is_dir (resolve_path fsB sub)) = true
    · simp [compare_entry, hf, hd] at h
    · rw [Bool.not_eq_true] at hd
      simp [compare_entry, hf, hd] at h

/-! ## Claim theorems -/

/-- Claim C1: the claim states that remove_subdirectories collapses a path
only when a previously kept path is a true ancestor ending at a full
path-segment boundary, and that on the input consisting of file1 and file10
both paths survive.  The source performs a raw starts_with test on the sorted
list, so file10 is swallowed by file1: this theorem evaluates the code at
that input, exhibiting the divergence (the code is the slip; the spec states
the intended behavior and itself flags the naive prefix matching as the
defect to avoid). -/
theorem C1_collapsing_swallows_sibling_file :
    remove_subdirectories ["file1", "file10"] = ["file1"]
      ∧ remove_subdirectories ["file1", "file10"] ≠ ["file1", "file10"] := by
  decide

/-- Claim C2, counterexample: the claim states that a cancellation flag
already set when analyze_disk_usage is invoked yields a single Aborted error.
In the source the command first stores false into the flag, so with the flag
set at invocation (initialFlag = true) and no abort() issued during the run
(every load reads false) the analysis completes normally: on an empty readable
root it returns the Dir entry, not the Aborted error. -/
theorem C2_preset_flag_counterexample :
    analyze_disk_usage true (fun _ => false) "root" (.ok [])
        = some (.Dir "root" 0 0 [])
      ∧ analyze_disk_usage true (fun _ => false) "root" (.ok [])
        ≠ some (.Error (some "root") none none "Aborted") := by
  refine ⟨rfl, fun h => ?_⟩
  rw [show analyze_disk_usage true (fun _ => false) "root" (.ok [])
    = some (.Dir "root" 0 0 []) from rfl] at h
  exact Entry.noConfusion (Option.some.inj h)

/-- Claim C2, amended: analyze_disk_usage clears the cancellation flag on
entry, so a flag set before invocation has no effect; it is an abort observed
during the run that aborts — if the very first boundary check (load 0) reads
true, and hence the final check (load 1) still reads true, the result is a
single Error entry with reason Aborted for the root path and no directory is
read. -/
theorem C2_only_inflight_abort_yields_aborted (flag : Bool) (sched : Nat → Bool)
    (path : String) (root : Listing) (h0 : sched 0 = true) (h1 : sched 1 = true) :
    analyze_disk_usage flag sched path root
      = some (.Error (some path) none none "Aborted") := by
  cases root with
  | fail msg => simp [analyze_disk_usage, analyze_directory_recursive, analyze_dir_fail, h0, h1]
  | ok children => simp [analyze_disk_usage, analyze_directory_recursive, analyze_dir_ok, h0, h1]

/-- Witness for the amended claim C2 at a concrete input. -/
theorem C2_only_inflight_abort_yields_aborted_witness :
    analyze_disk_usage false (fun _ => true) "root" (.ok [])
      = some (.Error (some "root") none none "Aborted") :=
  C2_only_inflight_abort_yields_aborted false (fun _ => true) "root" (.ok []) rfl rfl

/-- Claim C3: the claim states that an unlistable root, without cancellation,
yields a result whose tree is a single Error entry and never crashes.
analyze_directory_recursive does produce that Error entry, but
analyze_disk_usage then matches the result against Entry::Dir with a panic!()
fallback arm, so the command panics (modelled as none) instead of returning
the Error entry: the claim matches the error-as-data design of the rest of
the code and the code is the slip. -/
theorem C3_unreadable_root_panics :
    analyze_disk_usage false (fun _ => false) "root"
      (.fail "permission denied (os error 13)") = none := rfl

/-- Claim C4: in every UsageTree built by analyze_directory_recursive, every
Dir node recursively stores size equal to the sum of the sizes of all
transitively contained File entries (Error entries contributing 0) and
number_of_files equal to the count of all transitively contained File and
Error leaves. -/
theorem C4_directory_aggregation_invariant (ctx : Context) (path : String) (l : Listing) :
    ((analyze_directory_recursive ctx path l).1).wellAggregated = true := by
  cases l with
  | fail msg =>
    simp only [analyze_directory_recursive, analyze_dir_fail]
    split <;> simp [Entry.wellAggregated]
  | ok children =>
    by_cases hab : ctx.abortAt ctx.checks = true
    · simp [analyze_directory_recursive, analyze_dir_ok, hab, Entry.wellAggregated]
    · have hl := analyzer_wellAggregated.2 { ctx with checks := ctx.checks + 1 } path children
      have hs := sums_of_wellAggregatedList _ hl
      simp [analyze_directory_recursive, analyze_dir_ok, hab, finish_dir,
        Entry.wellAggregated, hs.1, hs.2, hl]

/-- Claim C5: for root A holding file1.txt (10 bytes) and subdir/file2.txt
and root B holding only an identical file1.txt, compare returns exactly one
finding, MissingInDirB for the collapsed path subdir — the descendant
subdir/file2.txt is suppressed and nothing else is reported. -/
theorem C5_compare_collapses_missing_subdir :
    compare "A" "B" scenarioFsA scenarioFsB = [.MissingInDirB ⟨"subdir"⟩] := by
  decide

/-- Claim C6: when a path in the intersection resolves to regular files on
both sides, a hash failure on side A yields the CouldNotCalculateHash finding
for side A's full path; a hash failure on side B alone yields the finding for
side B's path; and whenever either hash fails, no DifferingContent finding is
produced for that path. -/
theorem C6_hash_failure_reported_not_differing (fsA fsB : List CFS)
    (pa pb sub nA nB : String) (bytesA : List Nat) :
    (resolve_path fsA sub = some (.file nA none) →
        path_is_file (resolve_path fsB sub) = true →
        compare_entry fsA fsB pa pb sub
          = .error (.CouldNotCalculateHash ⟨pathJoin pa sub, "could not read"⟩))
      ∧ (resolve_path fsA sub = some (.file nA (some bytesA)) →
        resolve_path fsB sub = some (.file nB none) →
        compare_entry fsA fsB pa pb sub
          = .error (.CouldNotCalculateHash ⟨pathJoin pb sub, "could not read"⟩))
      ∧ ((resolve_path fsA sub = some (.file nA none)
          ∨ resolve_path fsB sub = some (.file nB none)) →
        ∀ info, compare_entry fsA fsB pa pb sub ≠ .error (.DifferingContent info)) := by
  refine ⟨?_, ?_, ?_⟩
  · intro hA hBf
    rcases hfB : resolve_path fsB sub with _ | cb
    · rw [hfB] at hBf
      simp [path_is_file] at hBf
    · cases cb with
      | file nb contb => simp [compare_entry, hA, hfB, path_is_file, get_file_content_hash]
      | dirOk nb cs =>
        rw [hfB] at hBf
        simp [path_is_file] at hBf
      | dirFail nb m =>
        rw [hfB] at hBf
        simp [path_is_file] at hBf
      | other nb =>
        rw [hfB] at hBf
        simp [path_is_file] at hBf
  · intro hA hB
    simp [compare_entry, hA, hB, path_is_file, get_file_content_hash]
  · intro hside info hdiff
    obtain ⟨ha, hb, hA, hB⟩ := differing_requires_hashes fsA fsB pa pb sub info hdiff
    rcases hside with hs | hs
    · rw [hs] at hA
      simp [get_file_content_hash] at hA
    · rw [hs] at hB
      simp [get_file_content_hash] at hB

/-- Witness for claim C6 at a concrete input: side A unreadable, side B a
readable file. -/
theorem C6_hash_failure_reported_not_differing_witness :
    compare_entry [CFS.file "f" none] [CFS.file "f" (some [1])] "A" "B" "f"
      = .error (.CouldNotCalculateHash ⟨pathJoin "A" "f", "could not read"⟩) :=
  (C6_hash_failure_reported_not_differing [CFS.file "f" none] [CFS.file "f" (some [1])]
    "A" "B" "f" "f" "f" [1]).1 rfl rfl

/-- Claim C7, counterexample: the claim states every File entry carries a
root-relative path; analysing root /r containing the 5-byte file a yields a
File entry whose path is the full /r/a, not the root-relative a. -/
theorem C7_file_path_not_root_relative :
    (analyze_directory_recursive ⟨fun _ => false, 0, 0⟩ "/r" (.ok [.file "a" 5])).1
        = .Dir "/r" 5 1 [.File "/r/a" 5]
      ∧ ("/r/a" : String) ≠ "a" := ⟨rfl, by decide⟩

/-- Claim C7, amended: every File and Directory entry in the UsageTree
carries the full filesystem path — the analysis root path joined with the
entry's relative components — so every such path begins with the root path;
the root prefix is never removed. -/
theorem C7_paths_keep_root_as_full_paths (ctx : Context) (path : String) (l : Listing) :
    ((analyze_directory_recursive ctx path l).1).rootedUnder path = true := by
  cases l with
  | fail msg =>
    simp only [analyze_directory_recursive, analyze_dir_fail]
    split <;> simp [Entry.rootedUnder]
  | ok children =>
    by_cases hab : ctx.abortAt ctx.checks = true
    · simp [analyze_directory_recursive, analyze_dir_ok, hab, Entry.rootedUnder]
    · have hl := analyzer_rooted.2 { ctx with checks := ctx.checks + 1 } path children
      simp [analyze_directory_recursive, analyze_dir_ok, hab, finish_dir,
        Entry.rootedUnder, starts_with_refl, hl]

/-- Claim C8: over any sequence of calls to the throttled notifier starting
from a fresh Debounce with the fixed 100ms minimum interval, the first call is
always delivered immediately; consecutive delivered notifications are at least
the minimum interval apart (measured from the last actually delivered one);
and the delivered calls are a subsequence of the offered calls — skipped
notifications are dropped, never buffered or replayed. -/
theorem C8_debounce_throttling_policy (A : Type) (calls : List (Prod Nat A)) :
    ((run_calls ⟨100, none⟩ calls).1).Sublist calls
      ∧ (∀ c rest, calls = c :: rest → ((run_calls ⟨100, none⟩ calls).1).head? = some c)
      ∧ List.Chain' (fun a b => 100 ≤ b.1 - a.1) ((run_calls ⟨100, none⟩ calls).1) := by
  refine ⟨run_calls_sublist A _ calls, ?_, ?_⟩
  · intro c rest hc
    subst hc
    exact run_calls_head A 100 c rest
  · cases calls with
    | nil => simp [run_calls]
    | cons c rest =>
      obtain ⟨t, p⟩ := c
      have hout : (run_calls ⟨100, none⟩ ((t, p) :: rest)).1
          = (t, p) :: (run_calls ⟨100, some t⟩ rest).1 := by
        simp [run_calls, maybe_run]
      have hmap : List.Chain' (fun a b : Nat => 100 ≤ b - a)
          (((run_calls ⟨100, none⟩ ((t, p) :: rest)).1).map Prod.fst) := by
        rw [hout]
        simp only [List.map_cons]
        show List.Chain _ t _
        exact (run_calls_chain A 100 rest t).imp (fun a b h => le_of_lt h)
      exact (List.chain'_map Prod.fst).mp hmap

/-- Witness for claim C8 at a concrete input: of calls at times 0, 50 and
200, the first is delivered. -/
theorem C8_debounce_throttling_policy_witness :
    ((run_calls ⟨100, none⟩ [((0 : Nat), (0 : Nat)), (50, 1), (200, 2)]).1).head?
      = some (0, 0) :=
  (C8_debounce_throttling_policy Nat [(0, 0), (50, 1), (200, 2)]).2.1
    (0, 0) [(50, 1), (200, 2)] rfl

/-- Claim C9: flattening any Dir entry with depth 0 keeps its path, size and
number_of_files but empties its content, and flattening with any depth at
least the tree's depth returns the tree unchanged. -/
theorem C9_clone_flat_zero_and_full_depth (p : String) (s n : Nat) (c : List Entry) (N : Int) :
    Entry.clone_flat (.Dir p s n c) 0 = .Dir p s n []
      ∧ ((Entry.depth (.Dir p s n c) : Int) ≤ N →
        Entry.clone_flat (.Dir p s n c) N = .Dir p s n c) := by
  constructor
  · simp [Entry.clone_flat]
  · intro h
    exact clone_flat_of_depth_le.1 _ N h

/-- Witness for claim C9 at a concrete input of depth 1. -/
theorem C9_clone_flat_zero_and_full_depth_witness :
    Entry.clone_flat (.Dir "r" 5 1 [.File "r/a" 5]) 1 = .Dir "r" 5 1 [.File "r/a" 5] :=
  (C9_clone_flat_zero_and_full_depth "r" 5 1 [.File "r/a" 5] 1).2 (by decide)

/-- Claim C10: the cached-subtree lookup searches only the directory entries
strictly nested inside the cached root: for any tree the analyzer produced, a
target path equal to the root directory's own path finds nothing — the root
node itself is never compared against the target — so get_entry_by_path and
load_nested_directory both return none. -/
theorem C10_lookup_skips_root_path (ctx : Context) (p : String) (l : Listing)
    (s n : Nat) (c : List Entry)
    (h : (analyze_directory_recursive ctx p l).1 = .Dir p s n c) :
    get_entry_by_path c p = none
      ∧ load_nested_directory p (some (.Dir p s n c)) = none := by
  have hc : get_entry_by_path c p = none := by
    cases l with
    | fail msg =>
      refine absurd h ?_
      simp only [analyze_directory_recursive, analyze_dir_fail]
      split <;> simp
    | ok children =>
      by_cases hab : ctx.abortAt ctx.checks = true
      · exact absurd h (by simp [analyze_directory_recursive, analyze_dir_ok, hab])
      · simp only [analyze_directory_recursive, analyze_dir_ok, hab, if_false, finish_dir] at h
        injection h with h1 h2 h3 h4
        subst h4
        exact get_entry_by_path_of_joined p _ (analyze_children_dir_paths _ p children)
  refine ⟨hc, ?_⟩
  simp [load_nested_directory, hc]

/-- Witness for claim C10 at a concrete analyzer run whose root r holds one
subdirectory a. -/
theorem C10_lookup_skips_root_path_witness :
    get_entry_by_path [.Dir "r/a" 0 0 []] "r" = none
      ∧ load_nested_directory "r" (some (.Dir "r" 0 0 [.Dir "r/a" 0 0 []])) = none :=
  C10_lookup_skips_root_path ⟨fun _ => false, 0, 0⟩ "r" (.ok [.dirOk "a" []])
    0 0 [.Dir "r/a" 0 0 []] rfl
